import Mathlib

set_option autoImplicit false
set_option maxRecDepth 4000

namespace Skybison

/-! Shallow embedding of the skybison extension-API sources
    src/ext/Python/getargs.cpp and src/ext/Objects/abstract.cpp.

    Machine integers are modelled as Int/Nat with the C limits written out
    explicitly; error messages produced with PyErr_Format/raiseWithFmt are
    modelled as structured constructors carrying the values interpolated
    into the format string. -/

/-- Managed Python values, as far as the verified entry points inspect them:
    integers, floats, strings, bytes objects, tuples and None. -/
inductive PyObj where
  | int (v : Int)
  | float (v : Int)
  | str (s : String)
  | bytes (bs : List Nat)
  | tuple (xs : List PyObj)
  | none

/-! ### Cleanup machinery of getargs.cpp (freelist_t, addcleanup, cleanreturn)

    A `freelistentry_t` (getargs.cpp lines 22-25) pairs an allocated item with
    its destructor; both are opaque pointers in C and are modelled as numeric
    identifiers.  The freelist array with its `first_available` cursor is the
    list of entries registered so far, in registration order. -/

structure FreelistEntry where
  item : Nat
  destructor : Nat
deriving DecidableEq, Repr

/-- Model of `addcleanup` (getargs.cpp lines 164-174): stores the entry at index
    `first_available` and increments the cursor, i.e. appends it. -/
def addcleanup (e : FreelistEntry) (freelist : List FreelistEntry) :
    List FreelistEntry :=
  freelist ++ [e]

/-- The destructor invocations performed by `cleanreturn` (getargs.cpp lines
    176-190): when `retval` is 0 (failure) it runs
    `entries[index].destructor(nullptr, entries[index].item)` for
    `index = 0, 1, ..., first_available - 1`, i.e. it invokes every registered
    entry once, in registration order; on success it invokes nothing. -/
def cleanreturnCalls (retval : Bool) (freelist : List FreelistEntry) :
    List FreelistEntry :=
  if retval then [] else freelist

/-- Outcome of converting one argument item, abstracting `convertitem`: in
    both cases the conversion carries the cleanup entries it registered via
    `addcleanup` before returning (in registration order).  A failing item
    can itself have registered entries: the `es#` width check
    (getargs.cpp line 1073 via `STORE_SIZE`) fails after the `addcleanup` at
    line 1058, and a nested-tuple element can fail after an earlier element's
    `O&` converter registered a resource (lines 1160-1162); those entries
    stay on the shared freelist and `cleanreturn` invokes them too. -/
inductive ItemConv where
  | ok (allocs : List FreelistEntry)
  | fail (allocs : List FreelistEntry)
deriving DecidableEq, Repr

def ItemConv.allocsOf : ItemConv → List FreelistEntry
  | .ok a => a
  | .fail a => a

/-- Register a conversion's allocations one at a time with `addcleanup`. -/
def registerAllocs (allocs freelist : List FreelistEntry) :
    List FreelistEntry :=
  allocs.foldl (fun fl e => addcleanup e fl) freelist

/-- Observable trace of one argument-binding call: the overall success flag,
    the item indices on which a conversion was attempted (in order), and the
    destructor invocations performed by `cleanreturn` on the way out. -/
structure BindTrace where
  success : Bool
  attempted : List Nat
  invoked : List FreelistEntry
deriving DecidableEq, Repr

/-- The conversion loop of `vGetArgs1Impl` (getargs.cpp lines 312-320) with
    its exits through `cleanreturn` (lines 316-319 and 328): arguments are
    converted at indices `i = 0, 1, ...`; a failing conversion leaves the loop
    through `cleanreturn(0, ...)`, which runs every destructor on the shared
    freelist — including any entries the failing item itself registered
    before its error; finishing the loop leaves through `cleanreturn(1, ...)`,
    which runs none. -/
def bindLoopAux (conv : Nat → ItemConv) :
    Nat → Nat → List FreelistEntry → List Nat → BindTrace
  | _, 0, freelist, attempted =>
    ⟨true, attempted.reverse, cleanreturnCalls true freelist⟩
  | i, r + 1, freelist, attempted =>
    match conv i with
    | .ok allocs =>
        bindLoopAux conv (i + 1) r (registerAllocs allocs freelist)
          (i :: attempted)
    | .fail allocs =>
        ⟨false, (i :: attempted).reverse,
         cleanreturnCalls false (registerAllocs allocs freelist)⟩

def bindLoop (conv : Nat → ItemConv) (nargs : Nat) : BindTrace :=
  bindLoopAux conv 0 nargs [] []

/-- The cleanup entries registered while binding items `0 .. i-1`, in
    registration order. -/
def registeredBefore (conv : Nat → ItemConv) (i : Nat) : List FreelistEntry :=
  ((List.range i).map fun j => (conv j).allocsOf).flatten

theorem registerAllocs_eq (allocs freelist : List FreelistEntry) :
    registerAllocs allocs freelist = freelist ++ allocs := by
  induction allocs generalizing freelist with
  | nil => simp [registerAllocs]
  | cons a rest ih =>
    have h1 : registerAllocs (a :: rest) freelist =
        registerAllocs rest (freelist ++ [a]) := rfl
    rw [h1, ih]
    simp

theorem range_map_succ_shift (start n : Nat) :
    List.map (fun j => start + j) (List.range (n + 1)) =
      start :: List.map (fun j => start + 1 + j) (List.range n) := by
  rw [List.range_succ_eq_map, List.map_cons, List.map_map]
  simp only [Nat.add_zero]
  congr 1
  exact List.map_congr_left (fun j _ => by
    simp only [Function.comp_apply]; omega)

theorem flatten_map_range_shift (g : Nat → List FreelistEntry) (n : Nat) :
    (List.map g (List.range (n + 1))).flatten =
      g 0 ++ (List.map (fun j => g (j + 1)) (List.range n)).flatten := by
  rw [List.range_succ_eq_map, List.map_cons, List.flatten_cons, List.map_map]
  congr 1

theorem registeredBefore_succ (conv : Nat → ItemConv) (i : Nat) :
    registeredBefore conv (i + 1) =
      registeredBefore conv i ++ (conv i).allocsOf := by
  unfold registeredBefore
  rw [List.range_succ]
  simp

theorem bindLoopAux_fail (conv : Nat → ItemConv) :
    ∀ (i start r : Nat) (freelist : List FreelistEntry)
      (attempted : List Nat) (fallocs : List FreelistEntry),
      i < r → conv (start + i) = ItemConv.fail fallocs →
      (∀ j, j < i → ∀ a, conv (start + j) ≠ ItemConv.fail a) →
      bindLoopAux conv start r freelist attempted =
        ⟨false,
         attempted.reverse ++ (List.range (i + 1)).map (fun j => start + j),
         freelist ++
           ((List.range i).map fun j => (conv (start + j)).allocsOf).flatten
           ++ fallocs⟩ := by
  intro i
  induction i with
  | zero =>
    intro start r freelist attempted fallocs hr hfail _
    obtain ⟨r', rfl⟩ : ∃ r', r = r' + 1 := ⟨r - 1, by omega⟩
    have hf : conv start = ItemConv.fail fallocs := by simpa using hfail
    simp [bindLoopAux, hf, cleanreturnCalls, registerAllocs_eq,
      List.range_succ]
  | succ i ih =>
    intro start r freelist attempted fallocs hr hfail hok
    obtain ⟨r', rfl⟩ : ∃ r', r = r' + 1 := ⟨r - 1, by omega⟩
    have h0 : ∀ a, conv start ≠ ItemConv.fail a := by
      have h := hok 0 (Nat.succ_pos i)
      simpa using h
    obtain ⟨a, ha⟩ : ∃ a, conv start = ItemConv.ok a := by
      cases hc : conv start with
      | ok a => exact ⟨a, rfl⟩
      | fail al => exact absurd hc (h0 al)
    have hfail1 : conv (start + 1 + i) = ItemConv.fail fallocs := by
      rw [show start + 1 + i = start + (i + 1) by omega]; exact hfail
    have hok1 : ∀ j, j < i → ∀ al, conv (start + 1 + j) ≠ ItemConv.fail al := by
      intro j hj
      rw [show start + 1 + j = start + (j + 1) by omega]
      exact hok (j + 1) (by omega)
    have hrec := ih (start + 1) r' (registerAllocs a freelist)
      (start :: attempted) fallocs (by omega) hfail1 hok1
    have hstep : bindLoopAux conv start (r' + 1) freelist attempted =
        bindLoopAux conv (start + 1) r' (registerAllocs a freelist)
          (start :: attempted) := by
      simp [bindLoopAux, ha]
    rw [hstep, hrec]
    have hmap2 : (List.range i).map
          (fun j => (conv (start + 1 + j)).allocsOf) =
        (List.range i).map (fun j => (conv (start + (j + 1))).allocsOf) :=
      List.map_congr_left (fun j _ => by rw [show start + 1 + j = start + (j + 1) by omega])
    refine congrArg₂ (fun x y => BindTrace.mk false x y) ?_ ?_
    · rw [range_map_succ_shift start (i + 1)]
      simp [List.reverse_cons, List.append_assoc]
    · rw [hmap2, registerAllocs_eq,
        flatten_map_range_shift (fun j => (conv (start + j)).allocsOf) i]
      simp [ha, ItemConv.allocsOf, List.append_assoc]

theorem bindLoop_fail (conv : Nat → ItemConv) (nargs i : Nat)
    (fallocs : List FreelistEntry)
    (hi : i < nargs) (hfail : conv i = ItemConv.fail fallocs)
    (hok : ∀ j, j < i → ∀ a, conv j ≠ ItemConv.fail a) :
    bindLoop conv nargs =
      ⟨false, List.range (i + 1), registeredBefore conv i ++ fallocs⟩ := by
  have h := bindLoopAux_fail conv i 0 nargs [] [] fallocs hi
    (by simpa using hfail) (fun j hj => by simpa using hok j hj)
  unfold bindLoop
  rw [h]
  simp [registeredBefore]

/-- C1: if an argument-binding call fails at item `i`, `cleanreturn` invokes
    exactly the destructors on the freelist — every entry registered while
    binding items `0 .. i-1` and every entry the failing item itself
    registered before its error — each exactly once (the invocation list
    equals the full registration list `registeredBefore conv (i+1)`), no
    destructor for a never-registered entry runs, and hence the call has zero
    net native-owned allocations on failure. -/
theorem claimC1 (conv : Nat → ItemConv) (nargs i : Nat)
    (fallocs : List FreelistEntry)
    (hi : i < nargs) (hfail : conv i = ItemConv.fail fallocs)
    (hok : ∀ j, j < i → ∀ a, conv j ≠ ItemConv.fail a) :
    (bindLoop conv nargs).success = false ∧
    (bindLoop conv nargs).invoked = registeredBefore conv i ++ fallocs ∧
    (∀ e, ((bindLoop conv nargs).invoked).count e =
      (registeredBefore conv (i + 1)).count e) ∧
    (∀ e, e ∈ (bindLoop conv nargs).invoked →
      ∃ j, j < i + 1 ∧ e ∈ (conv j).allocsOf) := by
  rw [bindLoop_fail conv nargs i fallocs hi hfail hok]
  refine ⟨rfl, rfl, fun e => ?_, fun e he => ?_⟩
  · rw [registeredBefore_succ, hfail]
    rfl
  · rcases List.mem_append.mp he with h1 | h2
    · simp only [registeredBefore, List.mem_flatten, List.mem_map] at h1
      obtain ⟨l, ⟨j, hj, rfl⟩, hel⟩ := h1
      exact ⟨j, by have := List.mem_range.mp hj; omega, hel⟩
    · exact ⟨i, by omega, by rw [hfail]; exact h2⟩

/-- Concrete conversion outcomes used to witness the cleanup claims: items 0
    and 1 succeed registering one and two cleanup entries respectively, and
    item 2 fails after itself registering one entry (as an `es#` width
    failure or a partly converted nested tuple does). -/
def convEx : Nat → ItemConv
  | 0 => .ok [⟨10, 0⟩]
  | 1 => .ok [⟨11, 1⟩, ⟨12, 2⟩]
  | _ => .fail [⟨13, 3⟩]

/-- Witness for C1 at the concrete conversion family `convEx` with failure at
    item 2 of 3. -/
theorem claimC1_witness :
    (bindLoop convEx 3).success = false ∧
    (bindLoop convEx 3).invoked = registeredBefore convEx 2 ++ [⟨13, 3⟩] ∧
    (∀ e, ((bindLoop convEx 3).invoked).count e =
      (registeredBefore convEx 3).count e) ∧
    (∀ e, e ∈ (bindLoop convEx 3).invoked →
      ∃ j, j < 3 ∧ e ∈ (convEx j).allocsOf) :=
  claimC1 convEx 3 2 [⟨13, 3⟩] (by decide) (by decide)
    (fun j hj a => by
      match j, hj with
      | 0, _ => simp [convEx]
      | 1, _ => simp [convEx])

/-- C2 counterexample: with items 0 and 1 registering entries
    `⟨10,0⟩, ⟨11,1⟩, ⟨12,2⟩` (in that order) and item 2 failing after
    registering `⟨13,3⟩`, `cleanreturn` invokes the destructors in forward
    registration order, which differs from the reverse registration order the
    claim asserts. -/
theorem claimC2_counterexample :
    (bindLoop convEx 3).invoked =
      [⟨10, 0⟩, ⟨11, 1⟩, ⟨12, 2⟩, ⟨13, 3⟩] ∧
    (registeredBefore convEx 3).reverse =
      [⟨13, 3⟩, ⟨12, 2⟩, ⟨11, 1⟩, ⟨10, 0⟩] ∧
    (bindLoop convEx 3).invoked ≠ (registeredBefore convEx 3).reverse := by
  decide

/-- C2 (amended): within one argument-binding call items are bound strictly
    left-to-right (the attempted indices on a failure at item `i` are exactly
    `0, 1, ..., i` in order), and on failure the accumulated cleanup
    destructors — those of items `0 .. i-1` followed by those the failing
    item registered before its error — are executed strictly in forward
    registration order (first registered runs first). -/
theorem claimC2_amended (conv : Nat → ItemConv) (nargs i : Nat)
    (fallocs : List FreelistEntry)
    (hi : i < nargs) (hfail : conv i = ItemConv.fail fallocs)
    (hok : ∀ j, j < i → ∀ a, conv j ≠ ItemConv.fail a) :
    (bindLoop conv nargs).attempted = List.range (i + 1) ∧
    (bindLoop conv nargs).invoked = registeredBefore conv i ++ fallocs := by
  rw [bindLoop_fail conv nargs i fallocs hi hfail hok]
  exact ⟨rfl, rfl⟩

/-- Witness for the amended C2 at the concrete conversion family `convEx`. -/
theorem claimC2_witness :
    (bindLoop convEx 3).attempted = List.range 3 ∧
    (bindLoop convEx 3).invoked = registeredBefore convEx 2 ++ [⟨13, 3⟩] :=
  claimC2_amended convEx 3 2 [⟨13, 3⟩] (by decide) (by decide)
    (fun j hj a => by
      match j, hj with
      | 0, _ => simp [convEx]
      | 1, _ => simp [convEx])

/-! ### Exceptions and structured error messages

    `raiseWithFmt`/`PyErr_Format` messages are modelled as structured
    constructors carrying exactly the data interpolated into the C format
    string. -/

inductive Quant where
  | exactly
  | atLeast
  | atMost
deriving DecidableEq, Repr

/-- Messages written into `msgbuf` by `converterr`/`converttuple` in
    getargs.cpp. -/
inductive ConvMsg where
  | mustBeNot (expected actual : String)
  | parenthesized (s : String)
  | expectedArgsNotType (n : Nat) (actual : String)
  | seqItemNotType (n : Nat) (actual : String)
  | expectedArgsNotLen (n : Nat) (len : Int)
  | seqWrongLen (n : Nat) (len : Int)
  | notRetrievable
deriving DecidableEq, Repr

/-- The `msgbuf[0] == '('` test used by `seterror` and `converterr`. -/
def ConvMsg.startsParen : ConvMsg → Bool
  | .parenthesized _ => true
  | _ => false

inductive SkipErr where
  | unmatchedLeftParen
  | unmatchedRightParen
  | impossibleCode
deriving DecidableEq, Repr

inductive EMsg where
  | custom (s : String)
  | argMsg (fname : Option String) (iarg : Nat) (items : List Nat) (m : ConvMsg)
  | arity (fname : Option String) (q : Quant) (n : Nat) (given : Nat)
  | badFormat
  | takesAtMost (fname : Option String) (len given : Nat)
  | posArity (q : Quant) (n : Nat) (given : Nat)
  | dupArg (kw : String) (pos : Nat)
  | requiredNotFound (kw : String) (pos : Nat)
  | moreKwThanFmt (len i : Nat)
  | moreFmtThanKw
  | invalidKw (kw : String)
  | pipeTwice
  | dollarBeforePipe
  | dollarTwice
  | emptyKwParamName
  | emptyParamAfterDollar
  | intArgExpectedGotFloat
  | integerRequired
  | intTooLargeForLong
  | signedIntTooBig
  | signedIntTooSmall
  | lenNegative
  | cannotFitIndex
  | noLen
  | notWritable
  | skipitemFailed (m : SkipErr)
deriving DecidableEq, Repr

inductive PyExc where
  | typeErr (m : EMsg)
  | systemErr (m : EMsg)
  | overflowErr (m : EMsg)
  | valueErr (m : EMsg)
  | bufferErr (m : EMsg)
  | ofType (ty : String) (m : EMsg)
deriving DecidableEq, Repr

/-- Messages passed to `Py_FatalError` by the format scan of
    `vGetArgs1Impl`. -/
inductive FatalMsg where
  | tooManyNesting
  | excessRightParen
  | missingRightParen
deriving DecidableEq, Repr

/-- Result of one argument-binding entry point: success, a soft failure (an
    exception has been raised and 0 is returned to the caller), or a
    `Py_FatalError` process abort. -/
inductive GArgsResult where
  | ok
  | err (e : PyExc)
  | fatal (m : FatalMsg)
deriving DecidableEq, Repr

/-! ### Primitive helpers used by convertsimple/converttuple -/

def intMax : Int := 2147483647
def intMin : Int := -2147483648
def longMax : Int := 9223372036854775807
def longMin : Int := -9223372036854775808

def typeName : PyObj → String
  | .int _ => "int"
  | .float _ => "float"
  | .str _ => "str"
  | .bytes _ => "bytes"
  | .tuple _ => "tuple"
  | .none => "NoneType"

/-- The `arg == Py_None ? "None" : _PyType_Name(Py_TYPE(arg))` idiom. -/
def displayName : PyObj → String
  | .none => "None"
  | o => typeName o

/-- Modelled from the spec: `PySequence_Check` (abstract.cpp lines 1393-1398)
    delegates to `Runtime::isSequence`, whose implementation is not under
    src/.  Per the spec a value takes the sequence treatment when its type
    supports indexed element retrieval; strings and bytes are indexable (the
    spec notes their characters would otherwise be "silently iterated"),
    tuples are sequences, and numbers and None are not. -/
def pySequenceCheck : PyObj → Bool
  | .str _ => true
  | .bytes _ => true
  | .tuple _ => true
  | _ => false

def pyBytesCheck : PyObj → Bool
  | .bytes _ => true
  | _ => false

/-- Length of a sequence value, as `PySequence_Size` reports it for the
    sequence types of the model. -/
def pySequenceSize : PyObj → Int
  | .str s => s.length
  | .bytes bs => bs.length
  | .tuple xs => xs.length
  | _ => -1

/-- Modelled from the spec: `PySequence_GetItem` retrieves element `i` of a
    sequence through the managed runtime (not under src/); indexing a string
    yields its one-character substring, indexing bytes yields the byte as an
    integer. -/
def pySequenceGetItem : PyObj → Nat → Option PyObj
  | .tuple xs, i => xs[i]?
  | .str s, i => (s.data[i]?).map (fun ch => PyObj.str (String.mk [ch]))
  | .bytes bs, i => (bs[i]?).map (fun b => PyObj.int b)
  | _, _ => Option.none

/-- Modelled from the spec: `PyLong_AsLong` (ext/Objects/longobject.cpp, not
    under src/) performs the range-checked numeric conversion the spec
    describes: a non-integer operand raises a type error, an integer outside
    the signed 64-bit long range raises an overflow error, otherwise the
    exact value is produced. -/
def pyLongAsLong : PyObj → Except PyExc Int
  | .int v =>
    if v < longMin ∨ longMax < v then
      .error (.overflowErr EMsg.intTooLargeForLong)
    else .ok v
  | _ => .error (.typeErr EMsg.integerRequired)

/-- Model of `float_argument_error` (getargs.cpp lines 526-533): floats are rejected
    where integers are expected, raising a TypeError. -/
def floatArgumentError : PyObj → Option PyExc
  | .float _ => Option.some (.typeErr EMsg.intArgExpectedGotFloat)
  | _ => Option.none

/-! ### convertsimple / convertitem / converttuple (getargs.cpp 395-1208) -/

/-- Failure of a single item conversion: either an exception is already
    pending (`RETURN_ERR_OCCURRED`), or only `msgbuf` was filled in. -/
inductive ConvErr where
  | pending (e : PyExc)
  | msg (m : ConvMsg)
deriving DecidableEq, Repr

/-- Outcome of `convertitem`: on success the advanced format position, on
    failure the 0-terminated `levels` item path plus the error. -/
inductive CItemOut where
  | ok (rest : List Char)
  | fail (levels : List Nat) (err : ConvErr)
deriving DecidableEq, Repr

def impossibleMsg : String := "(impossible<bad format char>)"

/-- Model of `converterr` (getargs.cpp lines 508-520). -/
def converterr (expected : String) (arg : PyObj) : ConvMsg :=
  if expected.startsWith "(" then ConvMsg.parenthesized expected
  else ConvMsg.mustBeNot expected (displayName arg)

/-- Model of `convertsimple` (getargs.cpp lines 542-1208), restricted to the
    conversion codes the verified claims exercise: the signed-int code `i`
    (lines 645-665).  Every other code falls to the default branch of the
    switch (line 1197-1198). -/
def convertsimpleM (arg : PyObj) (format : List Char) :
    Except ConvErr (List Char) :=
  match format with
  | [] => .error (.msg (converterr impossibleMsg arg))
  | c :: rest =>
    if c = 'i' then
      match floatArgumentError arg with
      | Option.some e => .error (.pending e)
      | Option.none =>
        match pyLongAsLong arg with
        | .error e => .error (.pending e)
        | .ok ival =>
          if ival > intMax then
            .error (.pending (.overflowErr EMsg.signedIntTooBig))
          else if ival < intMin then
            .error (.pending (.overflowErr EMsg.signedIntTooSmall))
          else .ok rest
    else .error (.msg (converterr impossibleMsg arg))

/-- The item-counting scan at the head of `converttuple` (getargs.cpp lines
    421-434): counts level-0 items until the unmatched close paren or the end
    of the format. -/
def countTupleItems : List Char → Nat → Nat → Nat
  | [], _, n => n
  | c :: rest, level, n =>
    if c = '(' then
      countTupleItems rest (level + 1) (if level = 0 then n + 1 else n)
    else if c = ')' then
      if level = 0 then n else countTupleItems rest (level - 1) n
    else if c = ':' ∨ c = ';' then n
    else countTupleItems rest level
      (if level = 0 ∧ c.isAlpha then n + 1 else n)

mutual

/-- Model of `convertitem` (getargs.cpp lines 487-506), with an explicit fuel
    parameter for the mutual recursion with `converttuple`; the fuel is
    consumed on every cross-call and is chosen generously by
    `convertitemTop`, so it never runs out on real formats. -/
def convertitemM : Nat → PyObj → List Char → CItemOut
  | 0, arg, _ => .fail [] (.msg (converterr impossibleMsg arg))
  | fuel + 1, arg, format =>
    match format with
    | '(' :: rest =>
      match converttupleM fuel arg rest false with
      | .ok rest2 => .ok (rest2.drop 1)
      | .fail levels e => .fail levels e
    | _ =>
      match convertsimpleM arg format with
      | .ok rest => .ok rest
      | .error e => .fail [] e

/-- Model of `converttuple` (getargs.cpp lines 411-485): counts the expected item
    number, applies the sequence check (which explicitly excludes bytes
    objects), the length check, and then converts the elements. -/
def converttupleM : Nat → PyObj → List Char → Bool → CItemOut
  | 0, arg, _, _ => .fail [] (.msg (converterr impossibleMsg arg))
  | fuel + 1, arg, format, toplevel =>
    let n := countTupleItems format 0 0
    if !pySequenceCheck arg || pyBytesCheck arg then
      .fail []
        (.msg (if toplevel then ConvMsg.expectedArgsNotType n (displayName arg)
               else ConvMsg.seqItemNotType n (displayName arg)))
    else
      let len := pySequenceSize arg
      if len ≠ (n : Int) then
        .fail []
          (.msg (if toplevel then ConvMsg.expectedArgsNotLen n len
                 else ConvMsg.seqWrongLen n len))
      else converttupleItemsM fuel arg format 0 n

/-- The element loop of `converttuple` (getargs.cpp lines 461-481). -/
def converttupleItemsM : Nat → PyObj → List Char → Nat → Nat → CItemOut
  | 0, arg, _, _, _ => .fail [] (.msg (converterr impossibleMsg arg))
  | fuel + 1, arg, format, i, count =>
    match count with
    | 0 => .ok format
    | count' + 1 =>
      match pySequenceGetItem arg i with
      | Option.none => .fail [i + 1] (.msg ConvMsg.notRetrievable)
      | Option.some item =>
        match convertitemM fuel item format with
        | .ok rest => converttupleItemsM fuel arg rest (i + 1) count'
        | .fail levels e => .fail ((i + 1) :: levels) e

end

/-- Entry to `convertitem` with enough fuel for any nesting the format can
    express. -/
def convertitemTop (arg : PyObj) (format : List Char) : CItemOut :=
  convertitemM (4 * format.length + 4) arg format

/-! ### The format scan of vGetArgs1Impl (getargs.cpp lines 201-252) -/

inductive ScanOut where
  | fatal (m : FatalMsg)
  | done (minOpt : Option Nat) (max : Nat) (fname : Option (List Char))
      (custom : Option (List Char))
deriving DecidableEq, Repr

/-- The `if (level != 0) Py_FatalError(...)` check performed when the scan
    loop exits (getargs.cpp line 250). -/
def scanEnd (level : Nat) (minOpt : Option Nat) (max : Nat)
    (fname custom : Option (List Char)) : ScanOut :=
  if level ≠ 0 then .fatal .missingRightParen
  else .done minOpt max fname custom

/-- The first `while (endfmt == 0)` scan of `vGetArgs1Impl`: computes the
    arity bounds `min`/`max`, the diagnostic name after a colon and the
    custom message after a semicolon, aborting the process on unbalanced
    parentheses or nesting deeper than 30. -/
def scanFormatAux : List Char → Nat → Nat → Option Nat → ScanOut
  | [], level, max, minOpt => scanEnd level minOpt max Option.none Option.none
  | c :: rest, level, max, minOpt =>
    if c = '(' then
      if level + 1 ≥ 30 then .fatal .tooManyNesting
      else scanFormatAux rest (level + 1)
        (if level = 0 then max + 1 else max) minOpt
    else if c = ')' then
      if level = 0 then .fatal .excessRightParen
      else scanFormatAux rest (level - 1) max minOpt
    else if c = ':' then scanEnd level minOpt max (Option.some rest) Option.none
    else if c = ';' then scanEnd level minOpt max Option.none (Option.some rest)
    else if c = '|' then
      scanFormatAux rest level max (if level = 0 then Option.some max else minOpt)
    else
      scanFormatAux rest level
        (if level = 0 ∧ c.isAlpha ∧ c ≠ 'e' then max + 1 else max) minOpt

/-! ### seterror (getargs.cpp lines 359-393) -/

/-- The item-path truncation of `seterror`: at most 32 levels, stopping at
    the first 0 entry, each printed as `item (levels[i] - 1)`. -/
def seterrorLevels (levels : List Nat) : List Nat :=
  ((levels.takeWhile (fun l => 0 < l)).take 32).map (fun l => l - 1)

/-- Model of `seterror`: a pending exception is kept unchanged; otherwise the message
    is assembled from the function name, argument position, item path and
    `msgbuf` (or replaced by the custom `;message`), raised as SystemError
    when `msgbuf` starts with a paren and as TypeError otherwise. -/
def seterrorE (iarg : Nat) (levels : List Nat) (e : ConvErr)
    (fname : Option String) (custom : Option String) : PyExc :=
  match e with
  | .pending exc => exc
  | .msg m =>
    let payload : EMsg :=
      match custom with
      | Option.some s => EMsg.custom s
      | Option.none => EMsg.argMsg fname iarg (seterrorLevels levels) m
    if m.startsParen then .systemErr payload else .typeErr payload

/-! ### vGetArgs1Impl, non-compat path (getargs.cpp lines 192-329) -/

/-- The conversion loop of `vGetArgs1Impl` (lines 312-320) followed by the
    trailing-format sanity check (lines 322-326). -/
def vga1ConvertLoop :
    List PyObj → List Char → Nat → Option String → Option String → GArgsResult
  | [], format, _, _, _ =>
    match format with
    | [] => .ok
    | c :: _ =>
      if ¬ c.isAlpha ∧ c ≠ '(' ∧ c ≠ '|' ∧ c ≠ ':' ∧ c ≠ ';' then
        .err (.systemErr EMsg.badFormat)
      else .ok
  | arg :: rest, format, i, fname, custom =>
    let format1 := match format with
      | '|' :: t => t
      | _ => format
    match convertitemTop arg format1 with
    | .ok rest2 => vga1ConvertLoop rest rest2 (i + 1) fname custom
    | .fail levels e => .err (seterrorE (i + 1) levels e fname custom)

/-- Model of `vGetArgs1Impl` for a stack of already-extracted positional arguments
    (the non-compat path, getargs.cpp lines 192-329): scan the format, check
    the arity window `[min, max]`, then convert the arguments left to
    right. -/
def vGetArgs1ImplM (stack : List PyObj) (format : List Char) : GArgsResult :=
  match scanFormatAux format 0 0 Option.none with
  | .fatal m => .fatal m
  | .done minOpt max fname custom =>
    let min := minOpt.getD max
    let nargs := stack.length
    let fnameS := fname.map (fun cs => String.mk cs)
    if nargs < min ∨ max < nargs then
      .err (match custom with
        | Option.some mcs => PyExc.typeErr (EMsg.custom (String.mk mcs))
        | Option.none =>
          PyExc.typeErr (EMsg.arity fnameS
            (if min = max then Quant.exactly
             else if nargs < min then Quant.atLeast else Quant.atMost)
            (if nargs < min then min else max) nargs))
    else
      vga1ConvertLoop stack format 0 fnameS (custom.map (fun cs => String.mk cs))

theorem convertsimpleM_int (v : Int) (rest : List Char)
    (h1 : intMin ≤ v) (h2 : v ≤ intMax) :
    convertsimpleM (PyObj.int v) ('i' :: rest) = .ok rest := by
  have hl : ¬ (v < longMin ∨ longMax < v) := by
    simp only [intMin, intMax] at h1 h2
    simp only [longMin, longMax]
    omega
  have hbig : ¬ (v > intMax) := by simp only [intMax] at *; omega
  have hsmall : ¬ (v < intMin) := by simp only [intMin] at *; omega
  simp [convertsimpleM, floatArgumentError, pyLongAsLong, hl, hbig, hsmall]

theorem convertitemM_int (fuel : Nat) (v : Int) (rest : List Char)
    (h1 : intMin ≤ v) (h2 : v ≤ intMax) :
    convertitemM (fuel + 1) (PyObj.int v) ('i' :: rest) = .ok rest := by
  simp [convertitemM, convertsimpleM_int v rest h1 h2]

/-- C4 counterexample: binding descriptor `(ii)` against the single argument
    `"ab"` does not produce the claimed no-iteration type error
    ("must be 2-item sequence, not str"); instead `converttuple` treats the
    string as a sequence (only bytes objects are excluded by its
    `!PySequence_Check(arg) || PyBytes_Check(arg)` test), iterates its
    characters, and fails with the pending type error raised while converting
    the first character to an integer. -/
theorem claimC4_counterexample :
    vGetArgs1ImplM [PyObj.str "ab"] "(ii)".data =
      .err (.typeErr EMsg.integerRequired) ∧
    vGetArgs1ImplM [PyObj.str "ab"] "(ii)".data ≠
      .err (.typeErr (.argMsg Option.none 1 [] (.seqItemNotType 2 "str"))) ∧
    pySequenceCheck (PyObj.str "ab") = true ∧
    pyBytesCheck (PyObj.str "ab") = false := by
  refine ⟨by decide, by decide, rfl, rfl⟩

/-- C4 (amended): descriptor `(ii)` against `(1,2)` succeeds; against
    `(1,2,3)` fails with the length-mismatch error naming expected length 2
    and actual length 3; against the bytes value `b"ab"` fails with a type
    error without iterating (bytes are explicitly excluded from the sequence
    treatment); against the string `"ab"` the string is treated as a sequence
    of its characters and binding fails with the integer-conversion type
    error raised on the first character. -/
theorem claimC4_amended :
    vGetArgs1ImplM [PyObj.tuple [PyObj.int 1, PyObj.int 2]] "(ii)".data =
      .ok ∧
    vGetArgs1ImplM [PyObj.tuple [PyObj.int 1, PyObj.int 2, PyObj.int 3]]
        "(ii)".data =
      .err (.typeErr (.argMsg Option.none 1 [] (.seqWrongLen 2 3))) ∧
    vGetArgs1ImplM [PyObj.bytes [97, 98]] "(ii)".data =
      .err (.typeErr (.argMsg Option.none 1 [] (.seqItemNotType 2 "bytes"))) ∧
    vGetArgs1ImplM [PyObj.str "ab"] "(ii)".data =
      .err (.typeErr EMsg.integerRequired) := by
  refine ⟨by decide, by decide, by decide, by decide⟩

/-- C5: with descriptor `ii|i` (arity window `[2,3]`), binding two or three
    in-range integers succeeds; binding one fails with the arity error naming
    "at least 2" and the observed count 1; binding four fails with the arity
    error naming "at most 3" and the observed count 4. -/
theorem claimC5 (v1 v2 v3 v4 : Int)
    (h11 : intMin ≤ v1) (h12 : v1 ≤ intMax)
    (h21 : intMin ≤ v2) (h22 : v2 ≤ intMax)
    (h31 : intMin ≤ v3) (h32 : v3 ≤ intMax) :
    vGetArgs1ImplM [PyObj.int v1, PyObj.int v2] "ii|i".data = .ok ∧
    vGetArgs1ImplM [PyObj.int v1, PyObj.int v2, PyObj.int v3] "ii|i".data =
      .ok ∧
    vGetArgs1ImplM [PyObj.int v1] "ii|i".data =
      .err (.typeErr (.arity Option.none Quant.atLeast 2 1)) ∧
    vGetArgs1ImplM [PyObj.int v1, PyObj.int v2, PyObj.int v3, PyObj.int v4]
        "ii|i".data =
      .err (.typeErr (.arity Option.none Quant.atMost 3 4)) := by
  have e1 : convertitemTop (PyObj.int v1) "ii|i".data = .ok "i|i".data :=
    convertitemM_int 19 v1 "i|i".data h11 h12
  have e2 : convertitemTop (PyObj.int v2) "i|i".data = .ok "|i".data :=
    convertitemM_int 15 v2 "|i".data h21 h22
  have e3 : convertitemTop (PyObj.int v3) "i".data = .ok [] :=
    convertitemM_int 7 v3 [] h31 h32
  refine ⟨?_, ?_, rfl, rfl⟩
  · show (match convertitemTop (PyObj.int v1) "ii|i".data with
      | CItemOut.ok r =>
          vga1ConvertLoop [PyObj.int v2] r 1 Option.none Option.none
      | CItemOut.fail levels e =>
          GArgsResult.err (seterrorE 1 levels e Option.none Option.none)) =
      GArgsResult.ok
    rw [e1]
    show (match convertitemTop (PyObj.int v2) "i|i".data with
      | CItemOut.ok r => vga1ConvertLoop [] r 2 Option.none Option.none
      | CItemOut.fail levels e =>
          GArgsResult.err (seterrorE 2 levels e Option.none Option.none)) =
      GArgsResult.ok
    rw [e2]
    rfl
  · show (match convertitemTop (PyObj.int v1) "ii|i".data with
      | CItemOut.ok r =>
          vga1ConvertLoop [PyObj.int v2, PyObj.int v3] r 1 Option.none
            Option.none
      | CItemOut.fail levels e =>
          GArgsResult.err (seterrorE 1 levels e Option.none Option.none)) =
      GArgsResult.ok
    rw [e1]
    show (match convertitemTop (PyObj.int v2) "i|i".data with
      | CItemOut.ok r =>
          vga1ConvertLoop [PyObj.int v3] r 2 Option.none Option.none
      | CItemOut.fail levels e =>
          GArgsResult.err (seterrorE 2 levels e Option.none Option.none)) =
      GArgsResult.ok
    rw [e2]
    show (match convertitemTop (PyObj.int v3) "i".data with
      | CItemOut.ok r => vga1ConvertLoop [] r 3 Option.none Option.none
      | CItemOut.fail levels e =>
          GArgsResult.err (seterrorE 3 levels e Option.none Option.none)) =
      GArgsResult.ok
    rw [e3]
    rfl

/-- Witness for C5 at the concrete integers 1, 2, 3, 4. -/
theorem claimC5_witness :
    vGetArgs1ImplM [PyObj.int 1, PyObj.int 2] "ii|i".data = .ok ∧
    vGetArgs1ImplM [PyObj.int 1, PyObj.int 2, PyObj.int 3] "ii|i".data =
      .ok ∧
    vGetArgs1ImplM [PyObj.int 1] "ii|i".data =
      .err (.typeErr (.arity Option.none Quant.atLeast 2 1)) ∧
    vGetArgs1ImplM [PyObj.int 1, PyObj.int 2, PyObj.int 3, PyObj.int 4]
        "ii|i".data =
      .err (.typeErr (.arity Option.none Quant.atMost 3 4)) :=
  claimC5 1 2 3 4 (by decide) (by decide) (by decide) (by decide)
    (by decide) (by decide)

/-! ### skipitem (getargs.cpp lines 1957-2079) -/

def GArgsResult.isFatal : GArgsResult → Bool
  | .fatal _ => true
  | _ => false

/-- Model of `IS_END_OF_FORMAT` (getargs.cpp line 1387). -/
def isEndOfFormat (fmt : List Char) : Bool :=
  match fmt with
  | [] => true
  | c :: _ => (c == ':') || (c == ';')

mutual

/-- Model of `skipitem`: advances past one item spec without converting anything; the
    fuel only feeds the nested-tuple recursion and is chosen generously by
    `skipitemTop`. -/
def skipitemM : Nat → List Char → Except SkipErr (List Char)
  | 0, _ => .error SkipErr.impossibleCode
  | fuel + 1, format =>
    match format with
    | [] => .error SkipErr.impossibleCode
    | c :: rest =>
      if (['b', 'B', 'h', 'H', 'i', 'I', 'l', 'k', 'L', 'K', 'n', 'f', 'd',
          'D', 'c', 'C', 'p', 'S', 'Y', 'U'] : List Char).contains c then
        .ok rest
      else if c == 'e' then
        match rest with
        | 's' :: '#' :: r2 => .ok r2
        | 't' :: '#' :: r2 => .ok r2
        | 's' :: r2 => .ok r2
        | 't' :: r2 => .ok r2
        | _ => .error SkipErr.impossibleCode
      else if (['s', 'z', 'y', 'u', 'Z', 'w'] : List Char).contains c then
        match rest with
        | '#' :: r2 => .ok r2
        | '*' :: r2 =>
          if c == 's' || c == 'z' || c == 'y' then .ok r2
          else .ok ('*' :: r2)
        | _ => .ok rest
      else if c == 'O' then
        match rest with
        | '!' :: r2 => .ok r2
        | '&' :: r2 => .ok r2
        | _ => .ok rest
      else if c == '(' then skipTupleM fuel rest
      else if c == ')' then .error SkipErr.unmatchedRightParen
      else .error SkipErr.impossibleCode

/-- The bypass-tuple loop of `skipitem` (getargs.cpp lines 2053-2067). -/
def skipTupleM : Nat → List Char → Except SkipErr (List Char)
  | 0, _ => .error SkipErr.impossibleCode
  | fuel + 1, format =>
    match format with
    | ')' :: rest => .ok rest
    | [] => .error SkipErr.unmatchedLeftParen
    | ':' :: _ => .error SkipErr.unmatchedLeftParen
    | ';' :: _ => .error SkipErr.unmatchedLeftParen
    | _ =>
      match skipitemM fuel format with
      | .error m => .error m
      | .ok rest => skipTupleM fuel rest

end

def skipitemTop (format : List Char) : Except SkipErr (List Char) :=
  skipitemM (2 * format.length + 2) format

/-! ### vgetargskeywords (getargs.cpp lines 1602-1840) -/

/-- Model of `strchr(format, c)` followed by a step past the found character: the
    suffix after the first occurrence of `c`, if any. -/
def strchrAfter (c : Char) : List Char → Option (List Char)
  | [] => Option.none
  | x :: rest => if x = c then Option.some rest else strchrAfter c rest

/-- Model of `PyDict_GetItemString` over the keyword dict, modelled as an ordered
    association list with string keys. -/
def kwLookup (kwdict : List (String × PyObj)) (k : String) : Option PyObj :=
  match kwdict with
  | [] => Option.none
  | (k2, v) :: rest => if k2 = k then Option.some v else kwLookup rest k

/-- The positional-only prefix scan (getargs.cpp line 1638): the number of
    leading empty names in the keyword list. -/
def countLeadingEmpty : List String → Nat
  | [] => 0
  | k :: rest => if k = "" then countLeadingEmpty rest + 1 else 0

/-- The `Empty keyword parameter name` scan (getargs.cpp lines 1641-1647):
    whether an empty name occurs after the positional-only prefix. -/
def hasEmptyAfterPos (kwlist : List String) : Bool :=
  (kwlist.drop (countLeadingEmpty kwlist)).any (fun k => k == "")

/-- The first dict key that matches no nonempty keyword-list entry
    (getargs.cpp lines 1813-1836). -/
def extraneousKw (kwdict : List (String × PyObj)) (kwlist : List String) :
    Option String :=
  match kwdict with
  | [] => Option.none
  | (k, _) :: rest =>
    if kwlist.any (fun name => (!(name == "")) && (name == k)) then
      extraneousKw rest kwlist
    else Option.some k

/-- State carried out of the main loop of `vgetargskeywords` when it runs off
    the end of the keyword list (or breaks out on `$` with `skip` set). -/
structure KwEnd where
  i : Nat
  fmt : List Char
  minOpt : Option Nat
  maxOpt : Option Nat
  skip : Bool
  nkw : Nat
deriving DecidableEq, Repr

inductive KwLoopOut where
  | res (r : GArgsResult)
  | fin (st : KwEnd)
deriving DecidableEq, Repr

/-- The main loop of `vgetargskeywords` (getargs.cpp lines 1670-1793):
    one iteration per keyword-list entry, tracking the format cursor, the
    `min`/`max` split markers (`INT_MAX` modelled as `Option.none`), the
    deferred-positional-arity `skip` flag and the remaining keyword count. -/
def kwLoopM (args : List PyObj) (kwdict : List (String × PyObj))
    (pos len : Nat) (fname custom : Option String) :
    List String → Nat → List Char → Option Nat → Option Nat → Bool → Nat →
    KwLoopOut
  | [], i, fmt, minOpt, maxOpt, skip, nkw =>
    .fin ⟨i, fmt, minOpt, maxOpt, skip, nkw⟩
  | keyword :: krest, i, fmt0, min0, max0, skip, nkw =>
    match (match fmt0 with
      | '|' :: f1 =>
        if min0.isSome then
          Except.error (GArgsResult.err (.systemErr EMsg.pipeTwice))
        else if max0.isSome then
          Except.error (GArgsResult.err (.systemErr EMsg.dollarBeforePipe))
        else Except.ok (f1, Option.some i)
      | _ =>
        (Except.ok (fmt0, min0) :
          Except GArgsResult (List Char × Option Nat))) with
    | Except.error r => KwLoopOut.res r
    | Except.ok (fmt1, min1) =>
      match (match fmt1 with
        | '$' :: f2 =>
          if max0.isSome then
            Except.error (KwLoopOut.res
              (GArgsResult.err (.systemErr EMsg.dollarTwice)))
          else if i < pos then
            Except.error (KwLoopOut.res
              (GArgsResult.err (.systemErr EMsg.emptyParamAfterDollar)))
          else if skip then
            Except.error (KwLoopOut.fin ⟨i, f2, min1, Option.some i, skip, nkw⟩)
          else if i < args.length then
            Except.error (KwLoopOut.res (GArgsResult.err (.typeErr
              (EMsg.posArity
                (if min1.isSome then Quant.atMost else Quant.exactly) i
                args.length))))
          else Except.ok (f2, Option.some i)
        | _ =>
          (Except.ok (fmt1, max0) :
            Except KwLoopOut (List Char × Option Nat))) with
      | Except.error out => out
      | Except.ok (fmt2, max2) =>
        if isEndOfFormat fmt2 then
          KwLoopOut.res
            (GArgsResult.err (.systemErr (EMsg.moreKwThanFmt len i)))
        else if skip then
          match skipitemTop fmt2 with
          | .error m =>
            KwLoopOut.res
              (GArgsResult.err (.systemErr (EMsg.skipitemFailed m)))
          | .ok fmt3 =>
            kwLoopM args kwdict pos len fname custom krest (i + 1) fmt3 min1
              max2 skip nkw
        else
          match (if nkw ≠ 0 ∧ pos ≤ i then kwLookup kwdict keyword
                 else Option.none) with
          | Option.some v =>
            if i < args.length then
              KwLoopOut.res
                (GArgsResult.err (.typeErr (EMsg.dupArg keyword (i + 1))))
            else
              match convertitemTop v fmt2 with
              | .ok fmt3 =>
                kwLoopM args kwdict pos len fname custom krest (i + 1) fmt3
                  min1 max2 skip (nkw - 1)
              | .fail levels e =>
                KwLoopOut.res
                  (GArgsResult.err (seterrorE (i + 1) levels e fname custom))
          | Option.none =>
            match args[i]? with
            | Option.some v =>
              match convertitemTop v fmt2 with
              | .ok fmt3 =>
                kwLoopM args kwdict pos len fname custom krest (i + 1) fmt3
                  min1 max2 skip nkw
              | .fail levels e =>
                KwLoopOut.res
                  (GArgsResult.err (seterrorE (i + 1) levels e fname custom))
            | Option.none =>
              if (match min1 with
                  | Option.none => true
                  | Option.some m => decide (i < m)) then
                if i < pos then
                  match skipitemTop fmt2 with
                  | .error m =>
                    KwLoopOut.res
                      (GArgsResult.err (.systemErr (EMsg.skipitemFailed m)))
                  | .ok fmt3 =>
                    kwLoopM args kwdict pos len fname custom krest (i + 1)
                      fmt3 min1 max2 true nkw
                else
                  KwLoopOut.res (GArgsResult.err
                    (.typeErr (EMsg.requiredNotFound keyword (i + 1))))
              else if nkw = 0 then KwLoopOut.res GArgsResult.ok
              else
                match skipitemTop fmt2 with
                | .error m =>
                  KwLoopOut.res
                    (GArgsResult.err (.systemErr (EMsg.skipitemFailed m)))
                | .ok fmt3 =>
                  kwLoopM args kwdict pos len fname custom krest (i + 1) fmt3
                    min1 max2 skip nkw

/-- Model of `vgetargskeywords` (getargs.cpp lines 1602-1840): positional-plus-keyword
    binding against a format string and a keyword-name list. -/
def vgetargskeywordsM (args : List PyObj) (kwdict : List (String × PyObj))
    (format : List Char) (kwlist : List String) : GArgsResult :=
  let fnameCs := strchrAfter ':' format
  let customCs := match fnameCs with
    | Option.some _ => Option.none
    | Option.none => strchrAfter ';' format
  let fname := fnameCs.map (fun cs => String.mk cs)
  let custom := customCs.map (fun cs => String.mk cs)
  let pos := countLeadingEmpty kwlist
  if hasEmptyAfterPos kwlist then
    .err (.systemErr EMsg.emptyKwParamName)
  else
    let len := kwlist.length
    let nargs := args.length
    let nkeywords := kwdict.length
    if len < nargs + nkeywords then
      .err (.typeErr (EMsg.takesAtMost fname len (nargs + nkeywords)))
    else
      match kwLoopM args kwdict pos len fname custom kwlist 0 format
          Option.none Option.none false nkeywords with
      | .res r => r
      | .fin st =>
        if st.skip then
          let m := match st.minOpt with
            | Option.none => pos
            | Option.some mv => Nat.min pos mv
          .err (.typeErr (EMsg.posArity
            (if m < st.i then Quant.atLeast else Quant.exactly) m nargs))
        else if !(isEndOfFormat st.fmt || st.fmt.headD ' ' == '|' ||
            st.fmt.headD ' ' == '$') then
          .err (.systemErr EMsg.moreFmtThanKw)
        else if 0 < st.nkw then
          match extraneousKw kwdict kwlist with
          | Option.some k => .err (.typeErr (EMsg.invalidKw k))
          | Option.none => .ok
        else .ok

/-- C3 counterexample: a repeated `|` in the keyword-path format string is
    reported by raising SystemError and returning failure to the caller — a
    recoverable soft error, not the process abort the claim asserts for every
    malformed-grammar case. -/
theorem claimC3_counterexample :
    vgetargskeywordsM [PyObj.int 1, PyObj.int 2, PyObj.int 3] []
        "i|i|i".data ["a", "b", "c"] =
      .err (.systemErr EMsg.pipeTwice) ∧
    (vgetargskeywordsM [PyObj.int 1, PyObj.int 2, PyObj.int 3] []
        "i|i|i".data ["a", "b", "c"]).isFatal = false := by
  refine ⟨by decide, by decide⟩

/-- C3 (amended): unmatched parentheses in the positional format scan abort
    the process through `Py_FatalError`, but an empty keyword parameter name,
    `$` before `|`, and a repeated `|` or `$` in the keyword path raise
    SystemError and return failure to the caller — soft errors, not process
    aborts. -/
theorem claimC3_amended :
    vGetArgs1ImplM [] "(i".data = .fatal FatalMsg.missingRightParen ∧
    vGetArgs1ImplM [] ")i".data = .fatal FatalMsg.excessRightParen ∧
    vgetargskeywordsM [PyObj.int 1, PyObj.int 2, PyObj.int 3] []
        "i|i|i".data ["a", "b", "c"] =
      .err (.systemErr EMsg.pipeTwice) ∧
    vgetargskeywordsM [PyObj.int 1] [("b", PyObj.int 2), ("c", PyObj.int 3)]
        "i$i$i".data ["a", "b", "c"] =
      .err (.systemErr EMsg.dollarTwice) ∧
    vgetargskeywordsM [PyObj.int 1] [("b", PyObj.int 2), ("c", PyObj.int 3)]
        "i$i|i".data ["a", "b", "c"] =
      .err (.systemErr EMsg.dollarBeforePipe) ∧
    vgetargskeywordsM [] [] "ii".data ["a", ""] =
      .err (.systemErr EMsg.emptyKwParamName) ∧
    (vgetargskeywordsM [PyObj.int 1]
        [("b", PyObj.int 2), ("c", PyObj.int 3)]
        "i$i$i".data ["a", "b", "c"]).isFatal = false ∧
    (vgetargskeywordsM [] [] "ii".data ["a", ""]).isFatal = false := by
  refine ⟨by decide, by decide, by decide, by decide, by decide, by decide,
    by decide, by decide⟩

/-- C6 counterexample: the keyword-list item `b` of `ii` with names
    `["a","b"]` is supplied both at its positional slot (second of two
    positional values) and by its keyword name, yet the binder fails with the
    `takes at most 2 arguments (3 given)` arity error — the
    `nargs + nkeywords > len` check at the head of `vgetargskeywords` fires
    before the duplicate check, so the failure is not the claimed
    given-by-name-and-position error. -/
theorem claimC6_counterexample :
    vgetargskeywordsM [PyObj.int 1, PyObj.int 2] [("b", PyObj.int 5)]
        "ii".data ["a", "b"] =
      .err (.typeErr (EMsg.takesAtMost Option.none 2 3)) ∧
    vgetargskeywordsM [PyObj.int 1, PyObj.int 2] [("b", PyObj.int 5)]
        "ii".data ["a", "b"] ≠
      .err (.typeErr (EMsg.dupArg "b" 2)) := by
  refine ⟨by decide, by decide⟩

theorem convertitemTop_int (v : Int) (rest : List Char)
    (h1 : intMin ≤ v) (h2 : v ≤ intMax) :
    convertitemTop (PyObj.int v) ('i' :: rest) = .ok rest := by
  unfold convertitemTop
  rw [show 4 * ('i' :: rest).length + 4 =
    (4 * ('i' :: rest).length + 3) + 1 by omega]
  exact convertitemM_int _ v rest h1 h2

theorem strchrAfter_replicate (c d : Char) (h : d ≠ c) (n : Nat) :
    strchrAfter c (List.replicate n d) = Option.none := by
  induction n with
  | zero => rfl
  | succ n ih => simp [List.replicate_succ, strchrAfter, h, ih]

/-- One step of the keyword loop over an all-`i` format, at an index `i0`
    strictly before the duplicated index `i`: the entry is bound from its
    positional slot and the loop moves on. -/
theorem kwLoop_dup_aux (args : List PyObj) (kwdict : List (String × PyObj))
    (kwlist : List String) (k : String) (i : Nat)
    (fname custom : Option String)
    (hargsints : ∀ (j : Nat) (v : PyObj), args[j]? = Option.some v →
      ∃ w : Int, v = PyObj.int w ∧ intMin ≤ w ∧ w ≤ intMax)
    (hik : i < args.length)
    (hilen : i < kwlist.length)
    (hk : kwlist[i]? = Option.some k)
    (hfound : (kwLookup kwdict k).isSome = true)
    (hleast : ∀ j, j < i → ∀ kj, kwlist[j]? = Option.some kj →
      kwLookup kwdict kj = Option.none) :
    ∀ d i0, i0 + d = i →
      kwLoopM args kwdict 0 kwlist.length fname custom (kwlist.drop i0) i0
        (List.replicate (kwlist.length - i0) 'i') Option.none Option.none
        false kwdict.length =
      KwLoopOut.res (GArgsResult.err (.typeErr (EMsg.dupArg k (i + 1)))) := by
  have hnkw : kwdict.length ≠ 0 := by
    cases hd : kwdict with
    | nil => rw [hd] at hfound; simp [kwLookup] at hfound
    | cons _ _ => simp
  intro d
  induction d with
  | zero =>
    intro i0 h0
    have hi0 : i0 = i := by omega
    subst hi0
    obtain ⟨v, hv⟩ : ∃ v, kwLookup kwdict k = Option.some v :=
      Option.isSome_iff_exists.mp hfound
    have hdrop : kwlist.drop i0 = k :: kwlist.drop (i0 + 1) := by
      rw [List.drop_eq_getElem_cons hilen]
      obtain ⟨h1, h2⟩ := List.getElem?_eq_some_iff.mp hk
      rw [h2]
    have hfmt : List.replicate (kwlist.length - i0) 'i' =
        'i' :: List.replicate (kwlist.length - i0 - 1) 'i' := by
      conv_lhs => rw [show kwlist.length - i0 =
        (kwlist.length - i0 - 1) + 1 by omega]
      rw [List.replicate_succ]
    rw [hdrop, hfmt]
    simp [kwLoopM, isEndOfFormat, hnkw, hv, hik]
  | succ d ih =>
    intro i0 h0
    have hi0len : i0 < kwlist.length := by omega
    obtain ⟨k0, hk0⟩ : ∃ k0, kwlist[i0]? = Option.some k0 := by
      exact ⟨kwlist[i0], List.getElem?_eq_getElem hi0len⟩
    have hdrop : kwlist.drop i0 = k0 :: kwlist.drop (i0 + 1) := by
      rw [List.drop_eq_getElem_cons hi0len]
      obtain ⟨h1, h2⟩ := List.getElem?_eq_some_iff.mp hk0
      rw [h2]
    have hfmt : List.replicate (kwlist.length - i0) 'i' =
        'i' :: List.replicate (kwlist.length - (i0 + 1)) 'i' := by
      rw [show kwlist.length - i0 = (kwlist.length - (i0 + 1)) + 1 by omega,
        List.replicate_succ]
    have hmiss : kwLookup kwdict k0 = Option.none :=
      hleast i0 (by omega) k0 hk0
    obtain ⟨v0, hv0⟩ : ∃ v0, args[i0]? = Option.some v0 := by
      have hlt : i0 < args.length := by omega
      exact ⟨args[i0], List.getElem?_eq_getElem hlt⟩
    obtain ⟨w0, hw0, hw1, hw2⟩ := hargsints i0 v0 hv0
    have hconv : convertitemTop v0
        ('i' :: List.replicate (kwlist.length - (i0 + 1)) 'i') =
        .ok (List.replicate (kwlist.length - (i0 + 1)) 'i') := by
      rw [hw0]
      exact convertitemTop_int w0 _ hw1 hw2
    rw [hdrop, hfmt]
    have hrec := ih (i0 + 1) (by omega)
    simp [kwLoopM, isEndOfFormat, hnkw, hmiss, hv0, hconv, hrec]

/-- C6 (amended): in positional-plus-keyword binding over an all-`i` format
    with nonempty keyword names, provided the combined positional and keyword
    count does not exceed the declared item count (otherwise the
    `takes at most` arity check fires first) and every earlier item binds
    successfully from its positional slot, the first item supplied both at
    its positional slot and by its keyword name makes the binder fail with
    the given-by-name-and-position error naming that keyword and its
    one-based position — for every positional slot `i` and every declared
    keyword name. -/
theorem claimC6_amended (args : List PyObj) (kwdict : List (String × PyObj))
    (kwlist : List String) (i : Nat) (k : String)
    (hnonempty : ∀ s ∈ kwlist, s ≠ "")
    (hargsints : ∀ (j : Nat) (v : PyObj), args[j]? = Option.some v →
      ∃ w : Int, v = PyObj.int w ∧ intMin ≤ w ∧ w ≤ intMax)
    (hcount : args.length + kwdict.length ≤ kwlist.length)
    (hik : i < args.length)
    (hilen : i < kwlist.length)
    (hk : kwlist[i]? = Option.some k)
    (hfound : (kwLookup kwdict k).isSome = true)
    (hleast : ∀ j, j < i → ∀ kj, kwlist[j]? = Option.some kj →
      kwLookup kwdict kj = Option.none) :
    vgetargskeywordsM args kwdict (List.replicate kwlist.length 'i') kwlist =
      .err (.typeErr (EMsg.dupArg k (i + 1))) := by
  have hfname : strchrAfter ':' (List.replicate kwlist.length 'i') =
      Option.none := strchrAfter_replicate ':' 'i' (by decide) _
  have hsemi : strchrAfter ';' (List.replicate kwlist.length 'i') =
      Option.none := strchrAfter_replicate ';' 'i' (by decide) _
  have hpos : countLeadingEmpty kwlist = 0 := by
    cases hkl : kwlist with
    | nil => rw [hkl] at hilen; simp at hilen
    | cons h t =>
      have hne : h ≠ "" := hnonempty h (by rw [hkl]; exact List.mem_cons_self h t)
      simp [countLeadingEmpty, hne]
  have hempty : hasEmptyAfterPos kwlist = false := by
    unfold hasEmptyAfterPos
    rw [hpos]
    simp only [List.drop_zero]
    rw [List.any_eq_false]
    intro x hx
    simpa using hnonempty x hx
  have hcnt : ¬ (kwlist.length < args.length + kwdict.length) := by omega
  have hloop := kwLoop_dup_aux args kwdict kwlist k i Option.none Option.none
    hargsints hik hilen hk hfound hleast i 0 (by omega)
  simp only [List.drop_zero, Nat.sub_zero] at hloop
  simp [vgetargskeywordsM, hfname, hsemi, hempty, hpos, hcnt, hloop]

/-- Witness for the amended C6: format `iii`, names `["a","b","c"]`, two
    positional integers and the middle item also supplied by keyword. -/
theorem claimC6_witness :
    vgetargskeywordsM [PyObj.int 1, PyObj.int 2] [("b", PyObj.int 7)]
        (List.replicate (["a", "b", "c"] : List String).length 'i')
        ["a", "b", "c"] =
      .err (.typeErr (EMsg.dupArg "b" 2)) :=
  claimC6_amended [PyObj.int 1, PyObj.int 2] [("b", PyObj.int 7)]
    ["a", "b", "c"] 1 "b"
    (by decide)
    (fun j v hv => by
      match j with
      | 0 =>
        simp at hv
        exact ⟨1, hv.symm, by decide, by decide⟩
      | 1 =>
        simp at hv
        exact ⟨2, hv.symm, by decide, by decide⟩
      | n + 2 => simp at hv)
    (by decide) (by decide) (by decide) (by decide) (by rfl)
    (fun j hj kj hkj => by
      match j, hj with
      | 0, _ =>
        simp at hkj
        rw [← hkj]
        simp [kwLookup])

/-! ### abstract.cpp: generic length queries (objectLength, lines 60-92) -/

/-- Whether a skybison Int value is held in a single sign-extended 64-bit
    digit, i.e. its `numDigits()` is 1.  Modelled from the spec: the managed
    Int representation lives in the runtime, outside src/. -/
def fitsInWord (v : Int) : Bool :=
  decide (-(2 ^ 63) ≤ v ∧ v < 2 ^ 63)

/-- The outcome of `invokeMethod1(obj, __len__)` followed by `intFromIndex`,
    both black-box calls into the managed runtime (spec section 6), as
    `objectLength` observes it. -/
inductive LenCall where
  | notFound
  | raised (e : PyExc)
  | returned (v : Int)
deriving DecidableEq, Repr

/-- A C return value paired with the pending exception, if any. -/
structure CallOut where
  ret : Int
  exc : Option PyExc
deriving DecidableEq, Repr

/-- Model of `objectLength` (abstract.cpp lines 60-92): a missing `__len__` raises the
    distinct `object has no len()` TypeError; an error raised by the method
    (or by index conversion) propagates unchanged; a negative length is a
    ValueError; a length of more than one digit is an OverflowError;
    otherwise the word value is returned. -/
def objectLength : LenCall → CallOut
  | .notFound => ⟨-1, Option.some (.typeErr EMsg.noLen)⟩
  | .raised e => ⟨-1, Option.some e⟩
  | .returned v =>
    if v < 0 then ⟨-1, Option.some (.valueErr EMsg.lenNegative)⟩
    else if !fitsInWord v then
      ⟨-1, Option.some (.overflowErr EMsg.cannotFitIndex)⟩
    else ⟨v, Option.none⟩

/-- Model of `PyObject_Length` (abstract.cpp lines 1225-1227). -/
def PyObject_LengthM : LenCall → CallOut := objectLength

/-- Model of `PySequence_Size` (abstract.cpp lines 1732-1734). -/
def PySequence_SizeM : LenCall → CallOut := objectLength

/-- Model of `PyMapping_Size` (abstract.cpp lines 381-383). -/
def PyMapping_SizeM : LenCall → CallOut := objectLength

/-- C7: for each generic length query, a negative length from the operand is
    reported as -1 with a ValueError; a nonnegative length that does not fit
    the index word is -1 with an OverflowError rather than a truncated value;
    a missing length method raises the distinct `object has no len()`
    TypeError; an exception raised by the method propagates unchanged; and an
    in-range length is returned as is. -/
theorem claimC7 (v : Int) (e : PyExc) :
    (v < 0 →
      PyObject_LengthM (.returned v) =
        ⟨-1, Option.some (.valueErr EMsg.lenNegative)⟩ ∧
      PySequence_SizeM (.returned v) =
        ⟨-1, Option.some (.valueErr EMsg.lenNegative)⟩ ∧
      PyMapping_SizeM (.returned v) =
        ⟨-1, Option.some (.valueErr EMsg.lenNegative)⟩) ∧
    (0 ≤ v → fitsInWord v = false →
      PyObject_LengthM (.returned v) =
        ⟨-1, Option.some (.overflowErr EMsg.cannotFitIndex)⟩ ∧
      PySequence_SizeM (.returned v) =
        ⟨-1, Option.some (.overflowErr EMsg.cannotFitIndex)⟩ ∧
      PyMapping_SizeM (.returned v) =
        ⟨-1, Option.some (.overflowErr EMsg.cannotFitIndex)⟩) ∧
    (PyObject_LengthM .notFound = ⟨-1, Option.some (.typeErr EMsg.noLen)⟩ ∧
     PySequence_SizeM .notFound = ⟨-1, Option.some (.typeErr EMsg.noLen)⟩ ∧
     PyMapping_SizeM .notFound = ⟨-1, Option.some (.typeErr EMsg.noLen)⟩) ∧
    (PyObject_LengthM (.raised e) = ⟨-1, Option.some e⟩) ∧
    (0 ≤ v → fitsInWord v = true →
      PyObject_LengthM (.returned v) = ⟨v, Option.none⟩) := by
  refine ⟨?_, ?_, ⟨rfl, rfl, rfl⟩, rfl, ?_⟩
  · intro hv
    simp [PyObject_LengthM, PySequence_SizeM, PyMapping_SizeM, objectLength,
      hv]
  · intro h0 hfit
    have hneg : ¬ (v < 0) := by omega
    simp [PyObject_LengthM, PySequence_SizeM, PyMapping_SizeM, objectLength,
      hneg, hfit]
  · intro h0 hfit
    have hneg : ¬ (v < 0) := by omega
    simp [PyObject_LengthM, objectLength, hneg, hfit]

/-- Witness for C7 at a negative length, a 100-bit length, and the
    missing-method case. -/
theorem claimC7_witness :
    PyObject_LengthM (.returned (-5)) =
      ⟨-1, Option.some (.valueErr EMsg.lenNegative)⟩ ∧
    PyObject_LengthM (.returned (2 ^ 100)) =
      ⟨-1, Option.some (.overflowErr EMsg.cannotFitIndex)⟩ ∧
    PyObject_LengthM .notFound = ⟨-1, Option.some (.typeErr EMsg.noLen)⟩ ∧
    PyObject_LengthM (.returned 7) = ⟨7, Option.none⟩ := by
  refine ⟨((claimC7 (-5) (.typeErr EMsg.noLen)).1 (by decide)).1,
    (((claimC7 (2 ^ 100) (.typeErr EMsg.noLen)).2.1 (by decide)
      (by decide)).1),
    ((claimC7 0 (.typeErr EMsg.noLen)).2.2.1.1),
    ((claimC7 7 (.typeErr EMsg.noLen)).2.2.2.2 (by decide) (by decide))⟩

/-! ### abstract.cpp: PyNumber_Add and its small-int fast path -/

/-- Result of a dispatched binary operation (`doBinaryOp`, abstract.cpp lines
    47-58): a wrapped result or a null return with the raised condition
    propagated. -/
inductive DispatchResult where
  | ok (r : PyObj)
  | exn

/-- Modelled from the spec: the skybison SmallInt immediate range (a tagged
    63-bit word, values in `[-2^62, 2^62)`); the exact bound is irrelevant to
    the equivalence below. -/
def isSmallInt (v : Int) : Bool :=
  decide (-(2 ^ 62) ≤ v ∧ v < 2 ^ 62)

/-- Model of `smallIntAdd` (abstract.cpp lines 404-414): when both operands are
    immediate small integers, wrap their exact sum (`runtime->newInt`)
    without any method lookup; otherwise decline. -/
def smallIntAdd (a b : PyObj) : Option PyObj :=
  match a, b with
  | .int x, .int y =>
    if isSmallInt x && isSmallInt y then Option.some (.int (x + y))
    else Option.none
  | _, _ => Option.none

/-- Model of `PyNumber_Add` (abstract.cpp lines 416-423): try the small-int fast path
    first, otherwise resolve `operator.add` through `doBinaryOp`, abstracted
    here as the `dispatch` parameter. -/
def PyNumber_AddM (dispatch : PyObj → PyObj → DispatchResult) (a b : PyObj) :
    DispatchResult :=
  match smallIntAdd a b with
  | Option.some r => .ok r
  | Option.none => dispatch a b

/-- Reference reading of the operation per the spec: always resolve the
    operation through operator dispatch, with no fast path. -/
def PyNumber_AddSpec (dispatch : PyObj → PyObj → DispatchResult)
    (a b : PyObj) : DispatchResult :=
  dispatch a b

theorem smallIntAdd_some (a b r : PyObj) (h : smallIntAdd a b = Option.some r) :
    ∃ x y : Int, a = PyObj.int x ∧ b = PyObj.int y ∧ isSmallInt x = true ∧
      isSmallInt y = true ∧ r = PyObj.int (x + y) := by
  cases a <;> cases b <;> simp [smallIntAdd] at h
  case int.int x y =>
    obtain ⟨⟨hx, hy⟩, hr⟩ := h
    exact ⟨x, y, rfl, rfl, hx, hy, hr.symm⟩

/-- C8: provided the managed dispatch of `operator.add` on two small
    integers produces their exact wrapped sum (which is the managed int
    semantics), `PyNumber_Add` with its fast path is observationally
    equivalent to always dispatching, for every pair of operands. -/
theorem claimC8 (dispatch : PyObj → PyObj → DispatchResult)
    (hdispatch : ∀ x y : Int, isSmallInt x = true → isSmallInt y = true →
      dispatch (PyObj.int x) (PyObj.int y) = .ok (PyObj.int (x + y))) :
    ∀ a b : PyObj, PyNumber_AddM dispatch a b = PyNumber_AddSpec dispatch a b := by
  intro a b
  unfold PyNumber_AddM PyNumber_AddSpec
  cases hs : smallIntAdd a b with
  | none => rfl
  | some r =>
    obtain ⟨x, y, rfl, rfl, hx, hy, rfl⟩ := smallIntAdd_some _ _ _ hs
    exact (hdispatch x y hx hy).symm

/-- A concrete dispatch model used to witness C8: managed addition of two
    integers produces their exact sum and raises on everything else. -/
def intAddDispatch : PyObj → PyObj → DispatchResult
  | .int x, .int y => .ok (.int (x + y))
  | _, _ => .exn

/-- Witness for C8 at the concrete operands 2 and 3. -/
theorem claimC8_witness :
    PyNumber_AddM intAddDispatch (PyObj.int 2) (PyObj.int 3) =
      PyNumber_AddSpec intAddDispatch (PyObj.int 2) (PyObj.int 3) :=
  claimC8 intAddDispatch (fun _ _ _ _ => rfl) (PyObj.int 2) (PyObj.int 3)

/-! ### abstract.cpp: buffer protocol (PyBuffer_FillInfo, PyBuffer_IsContiguous,
    PyObject_GetBuffer) -/

/-- Modelled from the spec: the buffer request flag bits ("flag bits for
    simple/writable/format/strided/contiguous requests"); the defining header
    is not under src/, the values are the standard CPython ones.
    `PyBUF_STRIDES` includes the `PyBUF_ND` bit. -/
def PyBUF_WRITABLE : Nat := 0x0001
def PyBUF_FORMAT : Nat := 0x0004
def PyBUF_ND : Nat := 0x0008
def PyBUF_STRIDES : Nat := 0x0018

/-- The fields of `Py_buffer` that the verified entry points read; raw
    pointers (`buf`, `obj`, `internal`) are omitted. -/
structure PyBufferView where
  len : Int
  readonly : Bool
  itemsize : Int
  format : Option String
  ndim : Nat
  shape : Option (List Int)
  strides : Option (List Int)
  suboffsets : Option (List Int)
deriving DecidableEq, Repr

/-- Model of `PyBuffer_FillInfo` (abstract.cpp lines 132-170): rejects a writable
    request against a read-only exporter with a BufferError, otherwise fills
    a one-dimensional view with `itemsize` 1; `shape` aliases `&view->len`
    (modelled as the one-element list `[len]`) and `strides` aliases
    `&view->itemsize` (modelled as `[1]`). -/
def PyBuffer_FillInfoM (len : Int) (readonly : Bool) (flags : Nat) :
    Except PyExc PyBufferView :=
  if (Nat.land flags PyBUF_WRITABLE == PyBUF_WRITABLE) && readonly then
    .error (.bufferErr EMsg.notWritable)
  else
    .ok
      { len := len
        readonly := readonly
        itemsize := 1
        format :=
          if Nat.land flags PyBUF_FORMAT == PyBUF_FORMAT then Option.some "B"
          else Option.none
        ndim := 1
        shape :=
          if Nat.land flags PyBUF_ND == PyBUF_ND then Option.some [len]
          else Option.none
        strides :=
          if Nat.land flags PyBUF_STRIDES == PyBUF_STRIDES then
            Option.some [1]
          else Option.none
        suboffsets := Option.none }

/-- The per-dimension stride walk shared by both contiguity checks
    (abstract.cpp lines 177-185 and 204-211): `dims` pairs `shape[d]` with
    `strides[d]` in visit order; `dimStride` starts at `itemsize` and is
    multiplied by each dimension extent. -/
def dimsContiguous : List (Int × Int) → Int → Bool
  | [], _ => true
  | (size, stride) :: rest, dimStride =>
    if 1 < size ∧ stride ≠ dimStride then false
    else dimsContiguous rest (dimStride * size)

/-- Model of `isContiguousWithRowMajorOrder` (abstract.cpp lines 172-186): dimensions
    are visited from last to first. -/
def isContiguousWithRowMajorOrder (view : PyBufferView) : Bool :=
  if view.suboffsets ≠ Option.none then false
  else if view.strides = Option.none then true
  else if view.len = 0 then true
  else
    dimsContiguous
      (((view.shape.getD []).zip (view.strides.getD [])).reverse)
      view.itemsize

/-- The strides-null branch of the column-major check (abstract.cpp lines
    191-201): contiguous when at most one dimension has extent above 1. -/
def atMostOneBigDim : List Int → Bool → Bool
  | [], _ => true
  | d :: rest, had =>
    if 1 < d then
      if had then false else atMostOneBigDim rest true
    else atMostOneBigDim rest had

/-- Model of `isContiguousWithColumnMajorOrder` (abstract.cpp lines 188-213):
    dimensions are visited from first to last. -/
def isContiguousWithColumnMajorOrder (view : PyBufferView) : Bool :=
  if view.suboffsets ≠ Option.none then false
  else if view.len = 0 then true
  else
    match view.strides with
    | Option.none =>
      if view.ndim ≤ 1 then true
      else atMostOneBigDim (view.shape.getD []) false
    | Option.some strides =>
      dimsContiguous ((view.shape.getD []).zip strides) view.itemsize

/-- Model of `PyBuffer_IsContiguous` (abstract.cpp lines 215-227). -/
def PyBuffer_IsContiguousM (view : PyBufferView) (order : Char) : Bool :=
  if order = 'C' then isContiguousWithRowMajorOrder view
  else if order = 'F' then isContiguousWithColumnMajorOrder view
  else if order = 'A' then
    isContiguousWithRowMajorOrder view ||
      isContiguousWithColumnMajorOrder view
  else false

/-- Model of `PyObject_GetBuffer` on a bytes argument (abstract.cpp lines 1100-1108):
    decode the bytes into a cached C string and fill a read-only view of the
    bytes length (the `bytesAsString` out-of-memory path is omitted). -/
def PyObject_GetBufferBytesM (bs : List Nat) (flags : Nat) :
    Except PyExc PyBufferView :=
  PyBuffer_FillInfoM (bs.length) true flags

/-- C9: every view successfully produced by `PyObject_GetBuffer` on a
    read-only bytes source is C-contiguous, and for every view the `A` order
    check holds exactly when the `C` check or the `F` check holds. -/
theorem claimC9 (bs : List Nat) (flags : Nat) (view : PyBufferView)
    (h : PyObject_GetBufferBytesM bs flags = .ok view) :
    PyBuffer_IsContiguousM view 'C' = true ∧
    ∀ v : PyBufferView, PyBuffer_IsContiguousM v 'A' =
      (PyBuffer_IsContiguousM v 'C' || PyBuffer_IsContiguousM v 'F') := by
  constructor
  · unfold PyObject_GetBufferBytesM PyBuffer_FillInfoM at h
    by_cases hw : ((Nat.land flags PyBUF_WRITABLE == PyBUF_WRITABLE) &&
        true) = true
    · rw [if_pos hw] at h
      exact absurd h (by simp)
    · rw [if_neg hw] at h
      obtain rfl := (Except.ok.injEq _ _).mp h.symm
      unfold PyBuffer_IsContiguousM isContiguousWithRowMajorOrder
      simp only [if_pos rfl]
      by_cases hst : (Nat.land flags PyBUF_STRIDES == PyBUF_STRIDES) = true
      · simp only [hst, if_pos]
        by_cases hlen : ((bs.length : Int) = 0)
        · simp [hlen]
        · by_cases hnd : (Nat.land flags PyBUF_ND == PyBUF_ND) = true
          · simp [hst, hnd, hlen, dimsContiguous]
          · simp [hst, hnd, hlen, dimsContiguous]
      · simp [hst]
  · intro v
    simp [PyBuffer_IsContiguousM]

/-- Witness for C9: three bytes requested with `PyBUF_SIMPLE` flags. -/
theorem claimC9_witness :
    PyBuffer_IsContiguousM
      ⟨3, true, 1, Option.none, 1, Option.none, Option.none, Option.none⟩
      'C' = true ∧
    ∀ v : PyBufferView, PyBuffer_IsContiguousM v 'A' =
      (PyBuffer_IsContiguousM v 'C' || PyBuffer_IsContiguousM v 'F') :=
  claimC9 [1, 2, 3] 0
    ⟨3, true, 1, Option.none, 1, Option.none, Option.none, Option.none⟩ rfl

/-! ### abstract.cpp: PyNumber_AsSsize_t (lines 429-450) -/

/-- The outcome of `intFromIndex` on the operand, a black-box call into the
    managed runtime. -/
inductive IndexResult where
  | fail (e : PyExc)
  | val (v : Int)
deriving DecidableEq, Repr

/-- Model of `Int::asWordSaturated`: clamp to the signed 64-bit word range.  Modelled
    from the spec: the managed Int implementation is not under src/. -/
def asWordSaturated (v : Int) : Int :=
  if v < -(2 ^ 63) then -(2 ^ 63)
  else if 2 ^ 63 ≤ v then 2 ^ 63 - 1
  else v

/-- Model of `PyNumber_AsSsize_t` (abstract.cpp lines 429-450): with a null
    `overflow_err`, or a value of a single digit, the saturated word value is
    returned with no exception; otherwise -1 is returned and the supplied
    exception type is raised with the cannot-fit message. -/
def PyNumber_AsSsize_tM (index : IndexResult) (overflowErr : Option String) :
    CallOut :=
  match index with
  | .fail _e => ⟨-1, Option.some _e⟩
  | .val v =>
    if overflowErr.isNone || fitsInWord v then
      ⟨asWordSaturated v, Option.none⟩
    else
      ⟨-1, overflowErr.map (fun ty => PyExc.ofType ty EMsg.cannotFitIndex)⟩

/-- C10: an in-range index value is returned exactly in both modes; an
    overflowing value is clipped to the word range without an exception when
    the overflow-error argument is null, and with a non-null overflow-error
    argument the call returns -1 raising that error type; an index-conversion
    failure propagates as -1. -/
theorem claimC10 (v : Int) (ty : String) (e : PyExc) :
    (fitsInWord v = true →
      PyNumber_AsSsize_tM (.val v) Option.none = ⟨v, Option.none⟩ ∧
      PyNumber_AsSsize_tM (.val v) (Option.some ty) = ⟨v, Option.none⟩) ∧
    (fitsInWord v = false →
      PyNumber_AsSsize_tM (.val v) Option.none =
        ⟨asWordSaturated v, Option.none⟩ ∧
      (2 ^ 63 ≤ v → asWordSaturated v = 2 ^ 63 - 1) ∧
      (v < -(2 ^ 63) → asWordSaturated v = -(2 ^ 63)) ∧
      PyNumber_AsSsize_tM (.val v) (Option.some ty) =
        ⟨-1, Option.some (PyExc.ofType ty EMsg.cannotFitIndex)⟩) ∧
    PyNumber_AsSsize_tM (.fail e) Option.none = ⟨-1, Option.some e⟩ := by
  refine ⟨?_, ?_, rfl⟩
  · intro hfit
    have hv : asWordSaturated v = v := by
      simp only [fitsInWord, decide_eq_true_eq] at hfit
      unfold asWordSaturated
      rw [if_neg (by omega), if_neg (by omega)]
    constructor
    · simp [PyNumber_AsSsize_tM, hv]
    · simp [PyNumber_AsSsize_tM, hfit, hv]
  · intro hfit
    refine ⟨by simp [PyNumber_AsSsize_tM], ?_, ?_, ?_⟩
    · intro hbig
      unfold asWordSaturated
      rw [if_neg (by omega), if_pos (by omega)]
    · intro hsmall
      unfold asWordSaturated
      rw [if_pos (by omega)]
    · simp [PyNumber_AsSsize_tM, hfit]

/-- Witness for C10 at the in-range value 42 and the overflowing value
    `2^100`. -/
theorem claimC10_witness :
    (PyNumber_AsSsize_tM (.val 42) Option.none = ⟨42, Option.none⟩ ∧
     PyNumber_AsSsize_tM (.val 42) (Option.some "OverflowError") =
       ⟨42, Option.none⟩) ∧
    (PyNumber_AsSsize_tM (.val (2 ^ 100)) Option.none =
       ⟨asWordSaturated (2 ^ 100), Option.none⟩ ∧
     asWordSaturated (2 ^ 100) = 2 ^ 63 - 1 ∧
     PyNumber_AsSsize_tM (.val (2 ^ 100)) (Option.some "OverflowError") =
       ⟨-1, Option.some (PyExc.ofType "OverflowError"
         EMsg.cannotFitIndex)⟩) := by
  have h1 := (claimC10 42 "OverflowError"
    (.typeErr EMsg.noLen)).1 (by decide)
  have h2 := (claimC10 (2 ^ 100) "OverflowError"
    (.typeErr EMsg.noLen)).2.1 (by decide)
  exact ⟨h1, h2.1, h2.2.1 (by decide), h2.2.2.2⟩

end Skybison
